import Mathlib

/-!
Verification of the repomons monitor/broadcast design against its source.

The development shallowly embeds the parts of the source that the claims
concern:

* the per-branch monitor tick of `src/branch.rs::monitor` — startup jitter,
  per-remote branch validation before download, local/remote ref resolution,
  ahead/behind comparison, and assembly of the per-tick `Message`;
* the broadcast hub of `src/run.rs::run` — the connection registry
  (a `HashMap<SocketAddr, UnboundedSender>` behind `Rc<RefCell<..>>`), the
  single merge channel, and the fan-out loop;
* the transfer-progress rendering of `src/callbacks.rs` — `to_percent`,
  `bytes_to_max_units`, `bytes_to_string`, `bytes_to_rate`, `progress`.

Machine integers are modelled as `Nat` (the values the claims touch are far
from any wrap boundary); commit ids (`git2::Oid`) are modelled as `Nat`;
formatted output strings whose exact text depends on `f64` arithmetic are
elided to `Unit`, keeping the success/failure structure of every fallible
step, which is what the claims concern.
-/

namespace Repomons

/-! ### Event model (the repomon `Message` assembled in `branch.rs`) -/

/-- The `repomon::Category` carried on a `Message`.  `dflt` stands for the
value produced by `Message::default()` before any remote is processed. -/
inductive Category
  | dflt
  | ahead
  | behind
  | upToDate
  deriving DecidableEq, Repr

/-- The human-readable per-remote status string built in the comparison loop
of `branch.rs` (lines 227-275).  The string content determines exactly one of
these shapes: `empty` is `String::new()`, `aheadMsg` is the
"Your branch is ahead of .. by n commit(s)" text, `behindMsg` the
"Your branch is behind .. by n commit(s)" text, and `upToDateMsg` the
"Your branch is up to date with .." text. -/
inductive RemoteMsg
  | empty
  | aheadMsg (remoteName : String) (n : Nat)
  | behindMsg (remoteName : String) (n : Nat)
  | upToDateMsg (remoteName : String)
  deriving DecidableEq, Repr

/-- The ahead count reported by a per-remote status message, when any. -/
def msgAheadCount : RemoteMsg → Option Nat
  | RemoteMsg.aheadMsg _ n => some n
  | _ => none

/-- The behind count reported by a per-remote status message, when any. -/
def msgBehindCount : RemoteMsg → Option Nat
  | RemoteMsg.behindMsg _ n => some n
  | _ => none

/-- One iteration of the comparison loop in `branch.rs` (lines 219-276) for a
single remote: given the (ahead, behind) pair from `graph_ahead_behind`, the
category stored on the message clone by `set_category` and the status message
inserted into `remote_messages`.  Mirrors the source exactly: an ahead
message is built first when `ahead > 0`, and then overwritten by the behind
message when `behind > 0`. -/
def remoteTickOutput (remoteName : String) (ahead behind : Nat) :
    Category × RemoteMsg :=
  if ahead > 0 ∨ behind > 0 then
    let m := if ahead > 0 then RemoteMsg.aheadMsg remoteName ahead
             else RemoteMsg.empty
    if behind > 0 then (Category.behind, RemoteMsg.behindMsg remoteName behind)
    else (Category.ahead, m)
  else (Category.upToDate, RemoteMsg.upToDateMsg remoteName)

/-- Abstraction of the per-task repository handle on the success path of a
tick: `resolve` models `get_oid_by_spec` (`revparse_single(spec).id()`,
`branch.rs` lines 311-313) and `aheadBehind` models
`Repository::graph_ahead_behind` (`branch.rs` line 225). -/
structure GitRepo where
  resolve : String → Nat
  aheadBehind : Nat → Nat → Nat × Nat

/-- The remote-tracking ref name built at `branch.rs` lines 199-204:
the remote name, a slash, then the branch name. -/
def remoteRefName (remoteName branch : String) : String :=
  remoteName ++ "/" ++ branch

/-- Models `BTreeMap::insert` on an association list keyed by the remote ref name:
replace the value when the key is present, append otherwise. -/
def insertMsg (k : String) (v : RemoteMsg) :
    List (String × RemoteMsg) → List (String × RemoteMsg)
  | [] => [(k, v)]
  | (k2, v2) :: t =>
    if k2 = k then (k, v) :: t else (k2, v2) :: insertMsg k v t

/-- The `Message` assembled for one tick (`branch.rs` lines 123-292):
repository name, the fresh uuid, the single `category` field (overwritten by
each remote processed), and the per-remote status map
`BTreeMap<Remote, String>` keyed by the remote-tracking ref name. -/
structure EventData where
  repoName : String
  uuid : Nat
  category : Category
  messages : List (String × RemoteMsg)
  deriving DecidableEq, Repr

/-- One comparison performed in the tick: the remote ref compared, the local
and remote commit ids handed to `graph_ahead_behind`, and its result. -/
structure Comparison where
  remoteRef : String
  localOid : Nat
  remoteOid : Nat
  ahead : Nat
  behind : Nat
  deriving DecidableEq, Repr

/-- The full observable outcome of the resolution/comparison phase of one
tick: the ref-resolution calls in program order (`trace`), the comparisons
performed, and the assembled event. -/
structure TickData where
  trace : List String
  comparisons : List Comparison
  event : EventData
  deriving Repr

/-- The fold step of the comparison loop: compute (ahead, behind) for one
entry of `remote_oids`, set the category on the message clone, and insert the
status message into `remote_messages`. -/
def tickStep (repo : GitRepo) (localOid : Nat)
    (acc : Category × List (String × RemoteMsg)) (p : String × Nat) :
    Category × List (String × RemoteMsg) :=
  let ab := repo.aheadBehind localOid p.2
  let out := remoteTickOutput p.1 ab.1 ab.2
  (out.1, insertMsg p.1 out.2 acc.2)

/-- The resolution/comparison phase of one monitor tick (`branch.rs` lines
194-279).  The local tip is resolved first (line 194) and exactly once; the
remote-tracking ref of every remote in the branch remote list is then
resolved while building `remote_oids` (a `HashMap`, so duplicate names
collapse; its iteration order is unspecified and modelled as first-occurrence
order, on which no claim depends); every comparison uses the single local
oid. -/
def tickRun (repo : GitRepo) (repoName branch : String)
    (remotes : List String) (uuid : Nat) : TickData :=
  let localOid := repo.resolve branch
  let refNames := (remotes.map (fun r => remoteRefName r branch)).dedup
  let remoteOids := refNames.map (fun n => (n, repo.resolve n))
  let comparisons := remoteOids.map (fun p =>
    let ab := repo.aheadBehind localOid p.2
    { remoteRef := p.1, localOid := localOid, remoteOid := p.2,
      ahead := ab.1, behind := ab.2 })
  let fin := remoteOids.foldl (tickStep repo localOid) (Category.dflt, [])
  { trace := branch :: refNames,
    comparisons := comparisons,
    event := { repoName := repoName, uuid := uuid,
               category := fin.1, messages := fin.2 } }

/-! ### Startup jitter (`branch.rs` lines 100-112) -/

/-- A `rand::distributions::Range`, as constructed by `Range::new(low, high)`. -/
structure RandRange where
  low : Nat
  high : Nat
  deriving DecidableEq, Repr

/-- The contract of `Range::ind_sample`: the drawn value lies in
`[low, high)`; every such value has positive probability (uniform). -/
def canSample (r : RandRange) (d : Nat) : Prop :=
  r.low ≤ d ∧ d < r.high

instance (r : RandRange) (d : Nat) : Decidable (canSample r d) := by
  unfold canSample; infer_instance

/-- The range the startup delay is drawn from, `branch.rs` line 103:
`Range::new(0, (interval * 4) / 5)` — the code comment reads
"Delay start up to 80%". -/
def startupDelayRange (interval : Nat) : RandRange :=
  { low := 0, high := interval * 4 / 5 }

/-! ### Transfer-progress rendering (`callbacks.rs`) -/

/-- The clone state tracked by `CallbackOutput`. -/
inductive CloneState
  | receiving
  | resolving
  deriving DecidableEq, Repr

/-- The function `to_percent` (`callbacks.rs` lines 90-101): fails with
"cannot divide by 0" when the denominator is zero.  The success payload (a
percent string computed with `f64` arithmetic) is elided to `Unit`; only the
success/failure structure matters to the claims. -/
def to_percent (numPre demPre : Nat) : Except String Unit :=
  if demPre > 0 then Except.ok () else Except.error "cannot divide by 0"

/-- The byte units enumeration of `callbacks.rs`. -/
inductive ByteUnits
  | byte
  | kibibyte
  | mebibyte
  | gibibyte
  | tebibyte
  | pebibyte
  | exbibyte
  deriving DecidableEq, Repr

/-- Models `ByteUnits::try_from(usize)` (`callbacks.rs` lines 121-136). -/
def byteUnitsTryFrom : Nat → Except String ByteUnits
  | 0 => Except.ok ByteUnits.byte
  | 1 => Except.ok ByteUnits.kibibyte
  | 2 => Except.ok ByteUnits.mebibyte
  | 3 => Except.ok ByteUnits.gibibyte
  | 4 => Except.ok ByteUnits.tebibyte
  | 5 => Except.ok ByteUnits.pebibyte
  | 6 => Except.ok ByteUnits.exbibyte
  | _ => Except.error "unsupported byte units index"

/-- The `while curr_bytes >= 1024` loop of `bytes_to_max_units`
(`callbacks.rs` lines 143-151): divide by 1024, recompute the remainder from
the divided value, bump the unit index, and break once the index reaches 6. -/
def maxUnitsLoop (currBytes remPre unitIdx : Nat) : Nat × Nat × Nat :=
  if h : 1024 ≤ currBytes then
    let cb := currBytes / 1024
    let rem := cb % 1024
    let idx := unitIdx + 1
    if idx = 6 then (cb, rem, idx) else maxUnitsLoop cb rem idx
  else
    (currBytes, remPre, unitIdx)
  termination_by currBytes
  decreasing_by
    exact Nat.div_lt_self (by omega) (by omega)

/-- Models `bytes_to_max_units` (`callbacks.rs` lines 139-153). -/
def bytes_to_max_units (bytesPre : Nat) :
    Except String (ByteUnits × Nat × Nat) :=
  let t := maxUnitsLoop bytesPre 0 0
  match byteUnitsTryFrom t.2.2 with
  | Except.ok u => Except.ok (u, t.1, t.2.1)
  | Except.error m => Except.error m

/-- Models `bytes_to_string` (`callbacks.rs` lines 156-171); the formatted string
(built with `f64` arithmetic) is elided to `Unit`. -/
def bytes_to_string (bytesPre : Nat) : Except String Unit :=
  match bytes_to_max_units bytesPre with
  | Except.ok _ => Except.ok ()
  | Except.error m => Except.error m

/-- Models `bytes_to_rate` (`callbacks.rs` lines 174-200).  Its only fallible step
is `u32::try_from(elapsed.as_secs())?`; the subsequent unit loop keeps the
index at most 6, so `ByteUnits::try_from` succeeds, and the remaining
arithmetic is infallible `f64` work (elided). -/
def bytes_to_rate (bytesPre elapsedSecs : Nat) : Except String Unit :=
  if elapsedSecs < 2 ^ 32 then
    let _ := bytesPre
    Except.ok ()
  else Except.error "out of range integral type conversion attempted"

/-- The numbers carried by a `git2::Progress` snapshot. -/
structure ProgressInput where
  receivedObjects : Nat
  totalObjects : Nat
  indexedDeltas : Nat
  totalDeltas : Nat
  receivedBytes : Nat
  deriving DecidableEq, Repr

/-- The `progress` remote callback (`callbacks.rs` lines 202-260).  Each
`.expect("")` in the source aborts the callback on an error value; this is
modelled by propagating the error, so `Except.error` marks a panic and
`Except.ok (b, st)` a normal return of `b` with the updated clone state. -/
def progressCb (state : CloneState) (elapsedSecs : Nat) (p : ProgressInput) :
    Except String (Bool × CloneState) :=
  if p.receivedObjects < p.totalObjects then
    match to_percent p.receivedObjects p.totalObjects with
    | Except.error m => Except.error m
    | Except.ok _ =>
      match bytes_to_string p.receivedBytes with
      | Except.error m => Except.error m
      | Except.ok _ =>
        match bytes_to_rate p.receivedBytes elapsedSecs with
        | Except.error m => Except.error m
        | Except.ok _ => Except.ok (true, state)
  else if p.receivedObjects = p.totalObjects then
    match state with
    | CloneState.receiving =>
      match to_percent p.receivedObjects p.totalObjects with
      | Except.error m => Except.error m
      | Except.ok _ =>
        match bytes_to_string p.receivedBytes with
        | Except.error m => Except.error m
        | Except.ok _ =>
          match bytes_to_rate p.receivedBytes elapsedSecs with
          | Except.error m => Except.error m
          | Except.ok _ => Except.ok (true, CloneState.resolving)
    | CloneState.resolving =>
      match (if p.totalDeltas = 0 then Except.ok ()
             else to_percent p.indexedDeltas p.totalDeltas) with
      | Except.error m => Except.error m
      | Except.ok _ => Except.ok (true, CloneState.resolving)
  else
    Except.ok (true, state)

/-! ### The broadcast hub (`run.rs` lines 144-217)

The registry is `Rc<RefCell<HashMap<SocketAddr, UnboundedSender<Vec<u8>>>>>`
mutated only on the single-threaded core, so its evolution is a sequence of
atomic operations: a connection registers on accept (lines 163-164, a
`HashMap::insert` that replaces any entry under the same address), the fan-out
loop enqueues each event arriving on the single merge channel onto every
registered open queue (lines 198-212; a failed `unbounded_send` is only
logged), a peer going away closes a queue (the receiver side is dropped), and
a completed drain task removes its address (lines 179-183).  Encoded events
(`Vec<u8>`) are modelled as `Nat`; addresses as `String`; a `HashMap` as an
association list with unspecified order and lookup/replace semantics. -/

/-- One registered connection: its outbound unbounded queue (the events
delivered to it, oldest first) and whether the receiver side is gone
(`closed`), in which case `unbounded_send` fails. -/
structure Conn where
  queue : List Nat
  closed : Bool
  deriving DecidableEq, Repr

/-- The connection registry. -/
abbrev HubState := List (String × Conn)

/-- The `HashMap` lookup by address. -/
def lookupConn (a : String) : HubState → Option Conn
  | [] => none
  | (b, c) :: t => if b = a then some c else lookupConn a t

/-- Drop every binding of the given address. -/
def eraseAddr (a : String) (s : HubState) : HubState :=
  s.filter (fun p => p.1 ≠ a)

/-- Models `connections.borrow_mut().insert(addr, tx)` on accept (`run.rs` lines
163-164): a fresh empty open queue bound to the address, replacing any
previous binding. -/
def registerConn (a : String) (s : HubState) : HubState :=
  (a, { queue := [], closed := false }) :: eraseAddr a s

/-- The fan-out of one event from the merge channel (`run.rs` lines
200-207): every registered open queue receives the event; on a closed queue
`unbounded_send` fails and the failure is only logged — the registry is not
touched. -/
def publishEvent (e : Nat) (s : HubState) : HubState :=
  s.map (fun p =>
    (p.1, if p.2.closed then p.2
          else { queue := p.2.queue ++ [e], closed := p.2.closed }))

/-- The peer side of a connection goes away: its queue receiver is dropped,
so subsequent sends to it fail.  The registry itself is unchanged. -/
def closeConnQueue (a : String) (s : HubState) : HubState :=
  s.map (fun p =>
    if p.1 = a then (p.1, { queue := p.2.queue, closed := true }) else p)

/-- Models `connections.borrow_mut().remove(&addr)` when a drain task completes
(`run.rs` lines 179-183). -/
def removeConn (a : String) (s : HubState) : HubState :=
  eraseAddr a s

/-- The operations the single-threaded core performs on the registry, in the
order it processes them. -/
inductive HubOp
  | register (a : String)
  | publish (e : Nat)
  | closeQueue (a : String)
  | remove (a : String)
  deriving DecidableEq, Repr

/-- One registry operation. -/
def hubStep (s : HubState) : HubOp → HubState
  | HubOp.register a => registerConn a s
  | HubOp.publish e => publishEvent e s
  | HubOp.closeQueue a => closeConnQueue a s
  | HubOp.remove a => removeConn a s

/-- A sequence of registry operations, processed one at a time on the single
core. -/
def hubRun (s : HubState) (ops : List HubOp) : HubState :=
  ops.foldl hubStep s

/-- The events published by a sequence of operations, in merge-point order. -/
def publishedEvents (ops : List HubOp) : List Nat :=
  ops.filterMap (fun op =>
    match op with
    | HubOp.publish e => some e
    | _ => none)

/-- Fan-out of a batch of events in the order they arrived at the merge
channel. -/
def publishAll (es : List Nat) (s : HubState) : HubState :=
  es.foldl (fun st e => publishEvent e st) s

/-! ### Per-remote branch validation and fetch (`branch.rs` lines 131-192)

Before downloading from a remote, the tick walks the advertised ref list of
the remote (`git_remote.list()`) looking for `refs/heads/<branch>`; only on a
match are `download` and `update_tips` run, otherwise the monitor returns the
"invalid branch" error, ending its loop (and its thread). -/

/-- A configured remote as the fetch loop sees it: its name and the ref names
it advertises on connect. -/
structure RemoteData where
  name : String
  advertisedRefs : List String
  deriving DecidableEq, Repr

/-- The fetch loop of one tick over the branch remote list, in order:
returns the names of the remotes actually downloaded from and the error that
ended the loop early, if any.  A remote whose advertised refs lack
`refs/heads/<branch>` produces the "invalid branch" error before any
download from it, and no later remote is processed. -/
def fetchPhase (branch : String) : List RemoteData → List String × Option String
  | [] => ([], none)
  | r :: rs =>
    if ("refs/heads/" ++ branch) ∈ r.advertisedRefs then
      let rest := fetchPhase branch rs
      (r.name :: rest.1, rest.2)
    else
      ([], some ("invalid branch: " ++ branch))

/-- The monitor polling loop viewed through its fetch phase, with explicit
fuel standing for the number of ticks the infinite loop is observed for:
the pair of completed ticks and the fatal error, if one occurred.  An error
in the fetch phase propagates out of `monitor` via `?`/`return Err`, so the
tick does not complete and no further tick runs. -/
def monitorTicks (branch : String) (remotes : List RemoteData) :
    Nat → Nat × Option String
  | 0 => (0, none)
  | n + 1 =>
    match (fetchPhase branch remotes).2 with
    | some e => (0, some e)
    | none =>
      let rest := monitorTicks branch remotes n
      (rest.1 + 1, rest.2)

/-- The runtime spawns one independent thread per monitored configuration
(`run.rs` lines 190-196, `thread::spawn` in a loop); each outcome is a
function of its own configuration alone. -/
def runAllMonitors (cfgs : List (String × List RemoteData)) (fuel : Nat) :
    List (Nat × Option String) :=
  cfgs.map (fun c => monitorTicks c.1 c.2 fuel)

/-- Whether an `Except` computation returned normally. -/
def exceptIsOk {α : Type} (x : Except String α) : Bool :=
  match x with
  | Except.ok _ => true
  | Except.error _ => false

/-! ### Helper lemmas -/

/-- The unit index computed by the byte-unit loop never exceeds 6. -/
theorem maxUnitsLoop_idx_le (b : Nat) : ∀ r i, i < 6 →
    (maxUnitsLoop b r i).2.2 ≤ 6 := by
  induction b using Nat.strong_induction_on with
  | _ b ih =>
    intro r i hi
    rw [maxUnitsLoop]
    by_cases hge : 1024 ≤ b
    · simp only [dif_pos hge]
      by_cases h6 : i + 1 = 6
      · simp [h6]
      · simp only [if_neg h6]
        exact ih (b / 1024) (Nat.div_lt_self (by omega) (by omega)) _ _ (by omega)
    · simp only [dif_neg hge]
      omega

/-- The conversion `ByteUnits::try_from` succeeds on every index the loop can produce. -/
theorem byteUnitsTryFrom_ok (i : Nat) (h : i ≤ 6) :
    ∃ u, byteUnitsTryFrom i = Except.ok u := by
  interval_cases i <;> exact ⟨_, rfl⟩

/-- The rendering `bytes_to_string` never fails. -/
theorem bytes_to_string_eq_ok (b : Nat) : bytes_to_string b = Except.ok () := by
  obtain ⟨u, hu⟩ := byteUnitsTryFrom_ok _ (maxUnitsLoop_idx_le b 0 0 (by omega))
  simp [bytes_to_string, bytes_to_max_units, hu]

/-! ### C3 — startup jitter bounds -/

/-- C3 counterexample: the startup delay is drawn from
`Range::new(0, interval * 4 / 5)`, so for interval 5000 ms the value 3999 is
a possible draw, and it is not below interval/5 = 1000 — the claimed bound
`[0, interval/5)` is wrong. -/
theorem c3_jitter_counterexample :
    canSample (startupDelayRange 5000) 3999 ∧ ¬ (3999 < 5000 / 5) := by
  decide

/-- C3 amended: the randomized startup delay is uniformly distributed in
`[0, 4 * interval / 5)` — up to 80 percent of the interval, matching the
comment in the source — never negative (it is a natural number) and never at
or above `interval * 4 / 5`; for interval 5000 ms it lies in `[0, 4000)`. -/
theorem startup_delay_uniform_bounds (interval d : Nat) :
    canSample (startupDelayRange interval) d ↔ d < interval * 4 / 5 := by
  simp [canSample, startupDelayRange]

/-! ### C1 — diverged history reporting -/

/-- A repository whose local branch `main` resolves to commit 1, every
remote-tracking ref to commit 2, with `graph_ahead_behind 1 2 = (2, 3)`:
two local-only commits and three remote-only commits (diverged history). -/
def divergedRepo : GitRepo where
  resolve := fun s => if s = "main" then 1 else 2
  aheadBehind := fun l r => if l = 1 ∧ r = 2 then (2, 3) else (0, 0)

/-- C1 counterexample: on a diverged comparison with ahead 2 and behind 3,
the tick computes both counts but the event entry for the remote is the
behind message alone — the ahead count 2 is reported nowhere. -/
theorem c1_diverged_counterexample :
    (tickRun divergedRepo "repo" "main" ["upstream"] 0).comparisons =
      [{ remoteRef := "upstream/main", localOid := 1, remoteOid := 2,
         ahead := 2, behind := 3 }] ∧
    (tickRun divergedRepo "repo" "main" ["upstream"] 0).event.messages =
      [("upstream/main", RemoteMsg.behindMsg "upstream/main" 3)] ∧
    msgAheadCount (RemoteMsg.behindMsg "upstream/main" 3) = none := by
  refine ⟨?_, ?_, rfl⟩ <;> decide

/-- C1 amended: when the ahead and behind counts of a compared remote are
both nonzero, the produced event entry reports only the behind count — the
behind message overwrites the ahead message in the comparison loop — and the
category set on the message is `Behind`. -/
theorem diverged_reports_behind_only (r : String) (ahead behind : Nat)
    (ha : 0 < ahead) (hb : 0 < behind) :
    remoteTickOutput r ahead behind =
      (Category.behind, RemoteMsg.behindMsg r behind) ∧
    msgAheadCount (remoteTickOutput r ahead behind).2 = none := by
  have h1 : ahead > 0 ∨ behind > 0 := Or.inl ha
  constructor
  · simp [remoteTickOutput, h1, hb]
  · simp [remoteTickOutput, h1, hb, msgAheadCount]

/-- C1 witness: the amended statement applied at the diverged pair (2, 3). -/
theorem diverged_reports_behind_only_witness :
    remoteTickOutput "upstream/main" 2 3 =
      (Category.behind, RemoteMsg.behindMsg "upstream/main" 3) ∧
    msgAheadCount (remoteTickOutput "upstream/main" 2 3).2 = none :=
  diverged_reports_behind_only "upstream/main" 2 3 (by decide) (by decide)

/-! ### C9 — progress rendering error handling -/

/-- C9 counterexample: a progress report with zero total objects (and zero
received objects) in the receiving state makes `to_percent` fail with
"cannot divide by 0", and the callback propagates it through `.expect("")`
— a panic — instead of returning normally. -/
theorem c9_progress_counterexample :
    progressCb CloneState.receiving 0
        { receivedObjects := 0, totalObjects := 0, indexedDeltas := 0,
          totalDeltas := 0, receivedBytes := 0 } =
      Except.error "cannot divide by 0" ∧
    exceptIsOk (progressCb CloneState.receiving 0
        { receivedObjects := 0, totalObjects := 0, indexedDeltas := 0,
          totalDeltas := 0, receivedBytes := 0 }) = false := by
  exact ⟨rfl, rfl⟩

/-- C9 amended: with a positive total object count (and an elapsed time whose
seconds fit in u32, as `bytes_to_rate` requires), the progress callback
returns normally on every input — in particular a zero total delta count is
rendered as "0%" and swallowed; but a zero total object count in the
receiving state makes the callback panic rather than return. -/
theorem progress_returns_normally (state : CloneState) (elapsedSecs : Nat)
    (p : ProgressInput) (ht : 0 < p.totalObjects)
    (he : elapsedSecs < 2 ^ 32) :
    exceptIsOk (progressCb state elapsedSecs p) = true := by
  have hts : to_percent p.receivedObjects p.totalObjects = Except.ok () := by
    simp [to_percent, ht]
  have hbs := bytes_to_string_eq_ok p.receivedBytes
  have hbr : bytes_to_rate p.receivedBytes elapsedSecs = Except.ok () := by
    unfold bytes_to_rate
    rw [if_pos he]
  have hdp : p.totalDeltas ≠ 0 →
      to_percent p.indexedDeltas p.totalDeltas = Except.ok () := by
    intro hd
    simp [to_percent, Nat.pos_of_ne_zero hd]
  unfold progressCb
  split_ifs with h1 h2 h3
  · simp [hts, hbs, hbr, exceptIsOk]
  · cases state with
    | receiving => simp [hts, hbs, hbr, exceptIsOk]
    | resolving => simp [exceptIsOk]
  · cases state with
    | receiving => simp [hts, hbs, hbr, exceptIsOk]
    | resolving => simp [hdp h3, exceptIsOk]
  · simp [exceptIsOk]

/-- C9 witness: the amended statement applied to a mid-transfer progress
report of 5 of 10 objects. -/
theorem progress_returns_normally_witness :
    exceptIsOk (progressCb CloneState.receiving 0
        { receivedObjects := 5, totalObjects := 10, indexedDeltas := 0,
          totalDeltas := 0, receivedBytes := 100 }) = true :=
  progress_returns_normally CloneState.receiving 0
    { receivedObjects := 5, totalObjects := 10, indexedDeltas := 0,
      totalDeltas := 0, receivedBytes := 100 } (by decide) (by decide)

/-! ### Registry lookup lemmas -/

/-- Lookup after a fan-out step: the queue of an open connection grows by the
event, a closed connection is untouched. -/
theorem lookupConn_publishEvent (a : String) (e : Nat) (s : HubState) :
    lookupConn a (publishEvent e s) =
      (lookupConn a s).map (fun c =>
        if c.closed then c else { queue := c.queue ++ [e], closed := c.closed }) := by
  induction s with
  | nil => rfl
  | cons p t ih =>
    by_cases hk : p.1 = a <;> simp [publishEvent, lookupConn, hk] <;>
      simpa [publishEvent] using ih

/-- Lookup after dropping an address. -/
theorem lookupConn_eraseAddr (a b : String) (s : HubState) :
    lookupConn a (eraseAddr b s) = if a = b then none else lookupConn a s := by
  induction s with
  | nil => simp [eraseAddr, lookupConn]
  | cons p t ih =>
    obtain ⟨k, c⟩ := p
    by_cases hkb : k = b
    · subst hkb
      have h1 : eraseAddr k ((k, c) :: t) = eraseAddr k t := by
        simp [eraseAddr]
      rw [h1, ih]
      by_cases hab : a = k
      · simp [hab]
      · have hka : ¬ k = a := fun h => hab h.symm
        simp [hab, lookupConn, hka]
    · have h1 : eraseAddr b ((k, c) :: t) = (k, c) :: eraseAddr b t := by
        simp [eraseAddr, hkb]
      rw [h1]
      by_cases hka : k = a
      · subst hka
        have hab : ¬ k = b := hkb
        simp [lookupConn, hab]
      · simp [lookupConn, hka, ih]

/-- Lookup after a registration: the registering address gets a fresh empty
open queue, every other address is unaffected. -/
theorem lookupConn_registerConn (a b : String) (s : HubState) :
    lookupConn a (registerConn b s) =
      if b = a then some { queue := [], closed := false }
      else lookupConn a s := by
  by_cases hba : b = a
  · simp [registerConn, lookupConn, hba]
  · have hab : ¬ a = b := fun h => hba h.symm
    simp [registerConn, lookupConn, hba, lookupConn_eraseAddr, hab]

/-- Lookup after a peer drops its queue receiver: the queue content and the
registry are unchanged, only the closed flag of that address flips. -/
theorem lookupConn_closeConnQueue (a b : String) (s : HubState) :
    lookupConn a (closeConnQueue b s) =
      (lookupConn a s).map (fun c =>
        if a = b then { queue := c.queue, closed := true } else c) := by
  induction s with
  | nil => rfl
  | cons p t ih =>
    obtain ⟨k, c⟩ := p
    by_cases hkb : k = b
    · subst hkb
      have h1 : closeConnQueue k ((k, c) :: t) =
          (k, { queue := c.queue, closed := true }) :: closeConnQueue k t := by
        simp [closeConnQueue]
      rw [h1]
      by_cases hab : a = k
      · subst hab
        simp [lookupConn]
      · have hka : ¬ k = a := fun h => hab h.symm
        simp [lookupConn, hka, ih, hab]
    · have h1 : closeConnQueue b ((k, c) :: t) = (k, c) :: closeConnQueue b t := by
        simp [closeConnQueue, hkb]
      rw [h1]
      by_cases hka : k = a
      · subst hka
        simp [lookupConn, hkb]
      · simp [lookupConn, hka, ih]

/-- Every entry surviving an address drop has a different address. -/
theorem mem_eraseAddr (a : String) (s : HubState) (p : String × Conn)
    (h : p ∈ eraseAddr a s) : p.1 ≠ a := by
  have := List.of_mem_filter h
  simpa using this

/-! ### C4 — fan-out delivers every event once, in merge order -/

/-- C4: for a batch of events arriving at the merge channel in order, every
connection that is registered with an open queue receives exactly those
events, appended to its queue in arrival order — each exactly once, and in
the same relative order for every connection. -/
theorem hub_fanout_exactly_once (s : HubState) (es : List Nat) (a : String)
    (c : Conn) (h : lookupConn a s = some c) (hopen : c.closed = false) :
    lookupConn a (publishAll es s) =
      some { queue := c.queue ++ es, closed := false } := by
  induction es generalizing s c with
  | nil =>
    cases c with
    | mk q cl =>
      simp only [Bool.not_eq_true] at hopen
      simpa [publishAll, hopen] using h
  | cons e es ih =>
    have h2 : lookupConn a (publishEvent e s) =
        some { queue := c.queue ++ [e], closed := false } := by
      rw [lookupConn_publishEvent, h]
      simp [hopen]
    have h3 := ih (publishEvent e s) { queue := c.queue ++ [e], closed := false }
      h2 rfl
    simpa [publishAll] using h3

/-- A registry with two live connections, one of them with an event already
queued. -/
def demoHub : HubState :=
  [("a", { queue := [], closed := false }), ("b", { queue := [5], closed := false })]

/-- C4 witness: publishing 7 then 9 to the demo registry appends exactly
[7, 9] to the queue of connection b. -/
theorem hub_fanout_exactly_once_witness :
    lookupConn "b" (publishAll [7, 9] demoHub) =
      some { queue := [5, 7, 9], closed := false } :=
  hub_fanout_exactly_once demoHub [7, 9] "b"
    { queue := [5], closed := false } (by decide) rfl

/-! ### C5 — a failed enqueue and the registry -/

/-- A registry with one broken connection (queue receiver gone) and two
healthy ones. -/
def brokenHub : HubState :=
  [("bad", { queue := [], closed := true }),
   ("ok1", { queue := [], closed := false }),
   ("ok2", { queue := [], closed := false })]

/-- C5 counterexample: publishing to a registry in which the queue of "bad"
is closed does not remove "bad" — the failed `unbounded_send` is only logged
(`run.rs` lines 204-206) and the fan-out loop never mutates the registry, so
"bad" is still registered afterwards, while both healthy connections receive
the event. -/
theorem c5_failed_enqueue_counterexample :
    lookupConn "bad" (publishEvent 7 brokenHub) =
      some { queue := [], closed := true } ∧
    lookupConn "bad" (publishEvent 7 brokenHub) ≠ none ∧
    lookupConn "ok1" (publishEvent 7 brokenHub) =
      some { queue := [7], closed := false } ∧
    lookupConn "ok2" (publishEvent 7 brokenHub) =
      some { queue := [7], closed := false } := by
  refine ⟨by decide, by decide, by decide, by decide⟩

/-- C5 amended: when enqueuing an event onto one connection fails (queue
closed / peer gone), the failure is logged and the connection stays in the
registry unchanged — it is removed only later, when its drain task completes
— and delivery of the event to every other registered connection is
unaffected. -/
theorem failed_enqueue_leaves_registry (s : HubState) (e : Nat)
    (a b : String) (c c2 : Conn)
    (hc : lookupConn a s = some c) (hcl : c.closed = true)
    (hb : lookupConn b s = some c2) (hop : c2.closed = false) :
    lookupConn a (publishEvent e s) = some c ∧
    lookupConn b (publishEvent e s) =
      some { queue := c2.queue ++ [e], closed := false } := by
  constructor
  · rw [lookupConn_publishEvent, hc]
    simp [hcl]
  · rw [lookupConn_publishEvent, hb]
    simp [hop]

/-- C5 witness: the amended statement applied to the broken-plus-healthy
registry. -/
theorem failed_enqueue_leaves_registry_witness :
    lookupConn "bad" (publishEvent 7 brokenHub) =
      some { queue := [], closed := true } ∧
    lookupConn "ok1" (publishEvent 7 brokenHub) =
      some { queue := [7], closed := false } :=
  failed_enqueue_leaves_registry brokenHub 7 "bad" "ok1"
    { queue := [], closed := true } { queue := [], closed := false }
    (by decide) rfl (by decide) rfl

/-! ### C7 — no replay to late joiners -/

/-- Anything in a queue after a run of registry operations was either there
at the start or was published during the run. -/
theorem mem_queue_of_hubRun : ∀ (ops : List HubOp) (s : HubState)
    (a : String) (q : Conn) (e : Nat),
    lookupConn a (hubRun s ops) = some q → e ∈ q.queue →
    (∃ c, lookupConn a s = some c ∧ e ∈ c.queue) ∨ e ∈ publishedEvents ops := by
  intro ops
  induction ops with
  | nil =>
    intro s a q e hq he
    exact Or.inl ⟨q, by simpa [hubRun] using hq, he⟩
  | cons op t ih =>
    intro s a q e hq he
    have hq2 : lookupConn a (hubRun (hubStep s op) t) = some q := hq
    rcases ih (hubStep s op) a q e hq2 he with ⟨c, hc, hec⟩ | hpub
    · cases op with
      | register b =>
        rw [show hubStep s (HubOp.register b) = registerConn b s from rfl,
          lookupConn_registerConn] at hc
        by_cases hba : b = a
        · rw [if_pos hba] at hc
          obtain rfl := Option.some.inj hc
          simp at hec
        · rw [if_neg hba] at hc
          exact Or.inl ⟨c, hc, hec⟩
      | publish e2 =>
        rw [show hubStep s (HubOp.publish e2) = publishEvent e2 s from rfl,
          lookupConn_publishEvent] at hc
        cases hcs : lookupConn a s with
        | none => rw [hcs] at hc; cases hc
        | some c0 =>
          rw [hcs] at hc
          have hc2 : some (if c0.closed then c0
              else { queue := c0.queue ++ [e2], closed := c0.closed }) = some c := hc
          obtain rfl := Option.some.inj hc2
          by_cases hcl : c0.closed
          · rw [if_pos hcl] at hec
            exact Or.inl ⟨c0, rfl, hec⟩
          · rw [if_neg hcl] at hec
            simp only [List.mem_append, List.mem_singleton] at hec
            rcases hec with hec | rfl
            · exact Or.inl ⟨c0, rfl, hec⟩
            · exact Or.inr (by simp [publishedEvents])
      | closeQueue b =>
        rw [show hubStep s (HubOp.closeQueue b) = closeConnQueue b s from rfl,
          lookupConn_closeConnQueue] at hc
        cases hcs : lookupConn a s with
        | none => rw [hcs] at hc; cases hc
        | some c0 =>
          rw [hcs] at hc
          have hc2 : some (if a = b then { queue := c0.queue, closed := true }
              else c0) = some c := hc
          obtain rfl := Option.some.inj hc2
          by_cases hab : a = b
          · rw [if_pos hab] at hec
            exact Or.inl ⟨c0, rfl, hec⟩
          · rw [if_neg hab] at hec
            exact Or.inl ⟨c0, rfl, hec⟩
      | remove b =>
        rw [show hubStep s (HubOp.remove b) = eraseAddr b s from rfl,
          lookupConn_eraseAddr] at hc
        by_cases hab : a = b
        · rw [if_pos hab] at hc; cases hc
        · rw [if_neg hab] at hc
          exact Or.inl ⟨c, hc, hec⟩
    · refine Or.inr ?_
      cases op <;> simp [publishedEvents] at hpub ⊢ <;> simp [hpub]

/-- C7: a connection that registers after an event was published never has
that event in its outbound queue — registration creates an empty queue, the
fan-out loop only appends events as they arrive at the merge channel, and
there is no replay buffer.  `s` is any registry state reached after the
event `E` was published; `ops` are the operations processed after the
registration, with `E` (whose uuid makes it unique) not among their
publishes. -/
theorem hub_no_replay (s : HubState) (ops : List HubOp) (a : String)
    (E : Nat) (hE : E ∉ publishedEvents ops) (q : Conn)
    (hq : lookupConn a (hubRun (hubStep s (HubOp.register a)) ops) = some q) :
    E ∉ q.queue := by
  intro he
  rcases mem_queue_of_hubRun ops _ a q E hq he with ⟨c, hc, hec⟩ | hp
  · rw [show hubStep s (HubOp.register a) = registerConn a s from rfl,
      lookupConn_registerConn, if_pos rfl] at hc
    obtain rfl := Option.some.inj hc
    simp at hec
  · exact hE hp

/-- A registry state in which event 42 was already fanned out to the only
connection present at that time. -/
def replayHub : HubState := [("x", { queue := [42], closed := false })]

/-- C7 witness: connection a registers after 42 was published; after one
further publish its queue holds only the later event, not 42. -/
theorem hub_no_replay_witness :
    (42 : Nat) ∉ publishedEvents [HubOp.publish 7] ∧
    (42 : Nat) ∉ (Conn.mk [7] false).queue := by
  refine ⟨by decide, ?_⟩
  exact hub_no_replay replayHub [HubOp.publish 7] "a" 42 (by decide)
    (Conn.mk [7] false) (by decide)

/-! ### C10 — re-registration under the same address replaces the entry -/

/-- C10: inserting a connection under an address already present replaces the
entry — the lookup yields the fresh empty open queue, no stale binding for
that address survives, and a subsequent publish lands only in the fresh
queue (the replaced queue receives nothing further). -/
theorem register_replaces (s : HubState) (a : String) (c : Conn)
    (h : lookupConn a s = some c) (e : Nat) :
    lookupConn a (hubStep s (HubOp.register a)) =
      some { queue := [], closed := false } ∧
    (∀ c2, (a, c2) ∈ hubStep s (HubOp.register a) →
      c2 = { queue := [], closed := false }) ∧
    lookupConn a (publishEvent e (hubStep s (HubOp.register a))) =
      some { queue := [e], closed := false } := by
  refine ⟨?_, ?_, ?_⟩
  · rw [show hubStep s (HubOp.register a) = registerConn a s from rfl,
      lookupConn_registerConn, if_pos rfl]
  · intro c2 hc2
    rw [show hubStep s (HubOp.register a) = registerConn a s from rfl] at hc2
    rcases List.mem_cons.mp hc2 with heq | hmem
    · exact congrArg Prod.snd heq
    · exact absurd rfl (mem_eraseAddr a s _ hmem)
  · rw [lookupConn_publishEvent,
      show hubStep s (HubOp.register a) = registerConn a s from rfl,
      lookupConn_registerConn, if_pos rfl]
    simp

/-- C10 witness: re-registering address a, which already has a queue holding
[1, 2], yields a fresh empty queue, and a subsequent publish of 9 lands only
there. -/
theorem register_replaces_witness :
    lookupConn "a" (hubStep [("a", Conn.mk [1, 2] false)] (HubOp.register "a")) =
      some { queue := [], closed := false } ∧
    lookupConn "a" (publishEvent 9
        (hubStep [("a", Conn.mk [1, 2] false)] (HubOp.register "a"))) =
      some { queue := [9], closed := false } :=
  ⟨(register_replaces [("a", Conn.mk [1, 2] false)] "a" (Conn.mk [1, 2] false)
      (by decide) 9).1,
   (register_replaces [("a", Conn.mk [1, 2] false)] "a" (Conn.mk [1, 2] false)
      (by decide) 9).2.2⟩

/-! ### C6 — branch validation before download, fatal on absence -/

/-- A fetch phase that meets a remote not advertising the branch ends in an
error. -/
theorem fetchPhase_error_of_absent (branch : String) :
    ∀ (remotes : List RemoteData), (∃ r ∈ remotes,
      ("refs/heads/" ++ branch) ∉ r.advertisedRefs) →
    ((fetchPhase branch remotes).2).isSome = true := by
  intro remotes
  induction remotes with
  | nil => rintro ⟨r, hr, _⟩; cases hr
  | cons x rs ih =>
    rintro ⟨r, hr, habs⟩
    by_cases hx : ("refs/heads/" ++ branch) ∈ x.advertisedRefs
    · rcases List.mem_cons.mp hr with rfl | hrs
      · exact absurd hx habs
      · have := ih ⟨r, hrs, habs⟩
        simpa [fetchPhase, hx] using this
    · simp [fetchPhase, hx]

/-- A remote not advertising the branch is never downloaded from. -/
theorem fetchPhase_not_downloaded (branch : String) :
    ∀ (remotes : List RemoteData),
    (remotes.map RemoteData.name).Nodup →
    ∀ r ∈ remotes, ("refs/heads/" ++ branch) ∉ r.advertisedRefs →
    r.name ∉ (fetchPhase branch remotes).1 := by
  intro remotes
  induction remotes with
  | nil => intro _ r hr; cases hr
  | cons x rs ih =>
    intro hnd r hr habs
    obtain ⟨hx, hrs_nd⟩ := List.nodup_cons.mp hnd
    by_cases hxv : ("refs/heads/" ++ branch) ∈ x.advertisedRefs
    · rcases List.mem_cons.mp hr with rfl | hrs
      · exact absurd hxv habs
      · have hne : r.name ≠ x.name := by
          intro he
          exact hx (he ▸ List.mem_map_of_mem RemoteData.name hrs)
        have htail := ih hrs_nd r hrs habs
        simp [fetchPhase, hxv]
        exact ⟨hne, htail⟩
    · simp [fetchPhase, hxv]

/-- A monitor whose fetch phase errors completes no tick: the error is
returned at once and the loop does not continue. -/
theorem monitorTicks_error (branch : String) (remotes : List RemoteData)
    (h : ((fetchPhase branch remotes).2).isSome = true) (fuel : Nat) :
    monitorTicks branch remotes (fuel + 1) = (0, (fetchPhase branch remotes).2) := by
  obtain ⟨e, he⟩ := Option.isSome_iff_exists.mp h
  simp [monitorTicks, he]

/-- C6: when a remote in the branch remote list does not advertise
`refs/heads/<branch>`, the fetch phase of the tick rejects the fetch before
any download from that remote (its name is not among the downloaded ones),
the owning monitor terminates with that error after completing zero ticks no
matter how long it is observed (not retried), and every monitor outcome in
the per-configuration spawn is a function of its own configuration alone, so
siblings are unaffected. -/
theorem invalid_branch_rejected_and_fatal (branch : String)
    (remotes : List RemoteData) (r : RemoteData) (hr : r ∈ remotes)
    (habs : ("refs/heads/" ++ branch) ∉ r.advertisedRefs)
    (hnd : (remotes.map RemoteData.name).Nodup) (fuel : Nat) :
    ((fetchPhase branch remotes).2).isSome = true ∧
    r.name ∉ (fetchPhase branch remotes).1 ∧
    monitorTicks branch remotes (fuel + 1) = (0, (fetchPhase branch remotes).2) ∧
    ∀ (cfgs : List (String × List RemoteData)) (i : Nat),
      (runAllMonitors cfgs (fuel + 1))[i]? =
        (cfgs[i]?).map (fun c => monitorTicks c.1 c.2 (fuel + 1)) := by
  have h1 := fetchPhase_error_of_absent branch remotes ⟨r, hr, habs⟩
  refine ⟨h1, fetchPhase_not_downloaded branch remotes hnd r hr habs,
    monitorTicks_error branch remotes h1 fuel, ?_⟩
  intro cfgs i
  simp [runAllMonitors]

/-- A remote advertising only a `dev` branch. -/
def badRemote : RemoteData :=
  { name := "origin", advertisedRefs := ["refs/heads/dev"] }

/-- C6 witness: fetching branch `master` from a remote that only advertises
`refs/heads/dev` is rejected with no download and ends the monitor at its
first tick. -/
theorem invalid_branch_rejected_and_fatal_witness :
    ((fetchPhase "master" [badRemote]).2).isSome = true ∧
    "origin" ∉ (fetchPhase "master" [badRemote]).1 ∧
    monitorTicks "master" [badRemote] (0 + 1) =
      (0, (fetchPhase "master" [badRemote]).2) :=
  ⟨(invalid_branch_rejected_and_fatal "master" [badRemote] badRemote
      (by decide) (by decide) (by decide) 0).1,
   (invalid_branch_rejected_and_fatal "master" [badRemote] badRemote
      (by decide) (by decide) (by decide) 0).2.1,
   (invalid_branch_rejected_and_fatal "master" [badRemote] badRemote
      (by decide) (by decide) (by decide) 0).2.2.1⟩

/-! ### Structure of the per-tick message map -/

/-- Inserting under a key not yet present appends the binding at the end. -/
theorem insertMsg_not_mem (k : String) (v : RemoteMsg) :
    ∀ (m : List (String × RemoteMsg)), k ∉ m.map Prod.fst →
    insertMsg k v m = m ++ [(k, v)] := by
  intro m
  induction m with
  | nil => intro _; rfl
  | cons p t ih =>
    intro h
    obtain ⟨k2, v2⟩ := p
    simp only [List.map_cons, List.mem_cons] at h
    push_neg at h
    obtain ⟨h1, h2⟩ := h
    have hk2 : ¬ k2 = k := fun he => h1 he.symm
    simp [insertMsg, hk2, ih h2]

/-- The comparison fold builds the message map by appending one binding per
entry of `remote_oids`, in iteration order, when the keys are distinct and
fresh. -/
theorem foldl_tickStep (repo : GitRepo) (localOid : Nat) :
    ∀ (l : List (String × Nat)) (c : Category) (m : List (String × RemoteMsg)),
    (l.map Prod.fst).Nodup → (∀ k ∈ l.map Prod.fst, k ∉ m.map Prod.fst) →
    (l.foldl (tickStep repo localOid) (c, m)).2 =
      m ++ l.map (fun p => (p.1,
        (remoteTickOutput p.1 (repo.aheadBehind localOid p.2).1
          (repo.aheadBehind localOid p.2).2).2)) := by
  intro l
  induction l with
  | nil => intro c m _ _; simp
  | cons p t ih =>
    intro c m hnd hfresh
    rw [List.map_cons] at hnd
    obtain ⟨hp, ht⟩ := List.nodup_cons.mp hnd
    have hpm : p.1 ∉ m.map Prod.fst := hfresh p.1 (by simp)
    have hstep : tickStep repo localOid (c, m) p =
        ((remoteTickOutput p.1 (repo.aheadBehind localOid p.2).1
            (repo.aheadBehind localOid p.2).2).1,
         m ++ [(p.1, (remoteTickOutput p.1 (repo.aheadBehind localOid p.2).1
            (repo.aheadBehind localOid p.2).2).2)]) := by
      simp [tickStep, insertMsg_not_mem _ _ m hpm]
    have hfresh2 : ∀ k ∈ t.map Prod.fst,
        k ∉ (m ++ [(p.1, (remoteTickOutput p.1 (repo.aheadBehind localOid p.2).1
          (repo.aheadBehind localOid p.2).2).2)]).map Prod.fst := by
      intro k hk
      simp only [List.map_append, List.mem_append]
      rintro (hkm | hkp)
      · exact hfresh k (by simp [hk]) hkm
      · simp at hkp
        exact hp (hkp ▸ hk)
    have := ih ((remoteTickOutput p.1 (repo.aheadBehind localOid p.2).1
        (repo.aheadBehind localOid p.2).2).1)
      (m ++ [(p.1, (remoteTickOutput p.1 (repo.aheadBehind localOid p.2).1
        (repo.aheadBehind localOid p.2).2).2)]) ht hfresh2
    calc (List.foldl (tickStep repo localOid) (c, m) (p :: t)).2
        = (List.foldl (tickStep repo localOid)
            (tickStep repo localOid (c, m) p) t).2 := rfl
      _ = _ := by rw [hstep, this]; simp

/-- Mapping first projections over a pairing recovers the key list. -/
theorem map_fst_pairing {α β : Type} (f : α → β) (l : List α) :
    (l.map (fun a => (a, f a))).map Prod.fst = l := by
  induction l with
  | nil => rfl
  | cons x t ih => simp [ih]

/-- Rewriting the values of a pairing map. -/
theorem map_pair_comp {α β γ : Type} (f : α → β) (g : α → β → γ) (l : List α) :
    (l.map (fun a => (a, f a))).map (fun p => (p.1, g p.1 p.2)) =
      l.map (fun a => (a, g a (f a))) := by
  induction l with
  | nil => rfl
  | cons x t ih => simp [ih]

/-- The message map of a tick, in closed form: one binding per deduplicated
remote-tracking ref name, carrying the status produced by the comparison for
that ref. -/
theorem tick_messages (repo : GitRepo) (repoName branch : String)
    (remotes : List String) (uuid : Nat) :
    (tickRun repo repoName branch remotes uuid).event.messages =
      ((remotes.map (fun r => remoteRefName r branch)).dedup).map
        (fun n => (n, (remoteTickOutput n
          (repo.aheadBehind (repo.resolve branch) (repo.resolve n)).1
          (repo.aheadBehind (repo.resolve branch) (repo.resolve n)).2).2)) := by
  have hkeys := map_fst_pairing repo.resolve
    ((remotes.map (fun r => remoteRefName r branch)).dedup)
  have h := foldl_tickStep repo (repo.resolve branch)
    (((remotes.map (fun r => remoteRefName r branch)).dedup).map
      (fun n => (n, repo.resolve n)))
    Category.dflt []
    (by
      rw [hkeys]
      exact (remotes.map (fun r => remoteRefName r branch)).nodup_dedup)
    (by intro k _ hk; simp at hk)
  have hrfl : (tickRun repo repoName branch remotes uuid).event.messages =
      (List.foldl (tickStep repo (repo.resolve branch)) (Category.dflt, [])
        (((remotes.map (fun r => remoteRefName r branch)).dedup).map
          (fun n => (n, repo.resolve n)))).2 := rfl
  rw [hrfl, h, List.nil_append]
  exact map_pair_comp repo.resolve
    (fun a b => (remoteTickOutput a
      (repo.aheadBehind (repo.resolve branch) b).1
      (repo.aheadBehind (repo.resolve branch) b).2).2) _

/-- Every per-remote status is up to date, ahead with a positive count, or
behind with a positive count — never the empty string. -/
theorem remoteTickOutput_shape (r : String) (a b : Nat) :
    (remoteTickOutput r a b).2 = RemoteMsg.upToDateMsg r ∨
    (∃ n, 0 < n ∧ (remoteTickOutput r a b).2 = RemoteMsg.aheadMsg r n) ∨
    (∃ n, 0 < n ∧ (remoteTickOutput r a b).2 = RemoteMsg.behindMsg r n) := by
  rcases Nat.eq_zero_or_pos b with hb | hb
  · rcases Nat.eq_zero_or_pos a with ha | ha
    · subst hb
      subst ha
      exact Or.inl rfl
    · subst hb
      have h1 : a > 0 ∨ 0 > 0 := Or.inl ha
      refine Or.inr (Or.inl ⟨a, ha, ?_⟩)
      simp [remoteTickOutput, h1, ha]
  · have h1 : a > 0 ∨ b > 0 := Or.inr hb
    refine Or.inr (Or.inr ⟨b, hb, ?_⟩)
    simp [remoteTickOutput, h1, hb]

/-! ### C2 — one entry per remote, and how it is keyed -/

/-- A repository in which every ref resolves to commit 1 and every
comparison is up to date. -/
def plainRepo : GitRepo where
  resolve := fun _ => 1
  aheadBehind := fun _ _ => (0, 0)

/-- C2 counterexample: the per-remote map of the event is keyed by the
remote-tracking ref name `origin/master`, not by the remote name `origin` —
the claimed keying by remote name does not hold. -/
theorem c2_keying_counterexample :
    (tickRun plainRepo "repo" "master" ["origin"] 0).event.messages =
      [("origin/master", RemoteMsg.upToDateMsg "origin/master")] ∧
    "origin" ∉
      (tickRun plainRepo "repo" "master" ["origin"] 0).event.messages.map
        Prod.fst := by
  exact ⟨by decide, by decide⟩

/-- C2 amended: on every tick the event carries exactly one status entry per
remote name in the branch remote list — each entry one of up to date, ahead
with n at least 1, or behind with n at least 1 — but keyed by the
remote-tracking ref name `<remote>/<branch>` rather than the bare remote
name (the event also has a single category field, overwritten by each remote
processed). -/
theorem event_one_entry_per_remote (repo : GitRepo) (repoName branch : String)
    (remotes : List String) (uuid : Nat) :
    ((tickRun repo repoName branch remotes uuid).event.messages.map Prod.fst
      = (remotes.map (fun r => remoteRefName r branch)).dedup) ∧
    (∀ r ∈ remotes,
      ((tickRun repo repoName branch remotes uuid).event.messages.map
        Prod.fst).count (remoteRefName r branch) = 1) ∧
    (∀ k m, (k, m) ∈ (tickRun repo repoName branch remotes uuid).event.messages →
      m = RemoteMsg.upToDateMsg k ∨
      (∃ n, 0 < n ∧ m = RemoteMsg.aheadMsg k n) ∨
      (∃ n, 0 < n ∧ m = RemoteMsg.behindMsg k n)) := by
  have hmsg := tick_messages repo repoName branch remotes uuid
  have hkeys : (tickRun repo repoName branch remotes uuid).event.messages.map
      Prod.fst = (remotes.map (fun r => remoteRefName r branch)).dedup := by
    rw [hmsg]
    exact map_fst_pairing _ _
  refine ⟨hkeys, ?_, ?_⟩
  · intro r hrm
    rw [hkeys]
    exact List.count_eq_one_of_mem
      (remotes.map (fun r => remoteRefName r branch)).nodup_dedup
      (List.mem_dedup.mpr (List.mem_map_of_mem _ hrm))
  · intro k m hkm
    rw [hmsg] at hkm
    obtain ⟨n, _, hn⟩ := List.mem_map.mp hkm
    have hk : n = k := congrArg Prod.fst hn
    have hm : (remoteTickOutput n
        (repo.aheadBehind (repo.resolve branch) (repo.resolve n)).1
        (repo.aheadBehind (repo.resolve branch) (repo.resolve n)).2).2 = m :=
      congrArg Prod.snd hn
    subst hk
    rw [← hm]
    exact remoteTickOutput_shape n _ _

/-- C2 witness: the amended statement applied to a single-remote
configuration. -/
theorem event_one_entry_per_remote_witness :
    ((tickRun plainRepo "repo" "master" ["origin"] 0).event.messages.map
      Prod.fst).count (remoteRefName "origin" "master") = 1 :=
  (event_one_entry_per_remote plainRepo "repo" "master" ["origin"] 0).2.1
    "origin" (by decide)

/-! ### C8 — a single local snapshot per tick -/

/-- A remote-tracking ref name is never the branch name itself: it is
strictly longer. -/
theorem remoteRefName_ne_branch (r branch : String) :
    remoteRefName r branch ≠ branch := by
  intro h
  have hlen := congrArg String.length h
  rw [remoteRefName] at hlen
  rw [String.length_append, String.length_append] at hlen
  have hone : ("/" : String).length = 1 := rfl
  omega

/-- C8: in every tick the local branch tip is resolved exactly once, as the
first resolution of the tick, before any remote-tracking ref is resolved;
and every per-remote comparison of the tick uses that single local commit id
snapshot. -/
theorem tick_single_local_snapshot (repo : GitRepo) (repoName branch : String)
    (remotes : List String) (uuid : Nat) :
    (tickRun repo repoName branch remotes uuid).trace =
      branch :: (remotes.map (fun r => remoteRefName r branch)).dedup ∧
    ((tickRun repo repoName branch remotes uuid).trace).count branch = 1 ∧
    ∀ c ∈ (tickRun repo repoName branch remotes uuid).comparisons,
      c.localOid = repo.resolve branch := by
  refine ⟨rfl, ?_, ?_⟩
  · have hnot : branch ∉ (remotes.map (fun r => remoteRefName r branch)).dedup := by
      intro hmem
      obtain ⟨r, _, hr⟩ := List.mem_map.mp (List.mem_dedup.mp hmem)
      exact remoteRefName_ne_branch r branch hr
    show ((branch :: (remotes.map (fun r => remoteRefName r branch)).dedup).count
      branch) = 1
    rw [List.count_cons_self, List.count_eq_zero.mpr hnot]
  · intro c hc
    unfold tickRun at hc
    simp only [List.mem_map] at hc
    obtain ⟨p, _, hp⟩ := hc
    rw [← hp]

/-- C8 witness: on the diverged single-remote repository the tick trace
mentions the local branch exactly once. -/
theorem tick_single_local_snapshot_witness :
    ((tickRun divergedRepo "repo" "main" ["upstream"] 0).trace).count "main" = 1 :=
  (tick_single_local_snapshot divergedRepo "repo" "main" ["upstream"] 0).2.1

end Repomons
